import Mathlib

/-!
Verification development for a quiz-generator program.  The program has two
algorithmic cores, both embedded here shallowly and faithfully from the source:

* `parse_txt_file` (src/bot.py, lines 112-230): splits free-form text into
  blocks and extracts question records.  The Python regular expressions used
  for line classification are translated into explicit character-level
  matchers on `List Char`, preserving their exact acceptance behaviour
  (including greedy/backtracking effects, which for these patterns reduce to
  maximal-run scanning).

* the generated quiz page's session engine (the JavaScript template inside
  `generate_html_quiz`): timer ticks, submit-button click and confirmation
  flow (`startTimer`, `attachListeners`, `submitQuiz`), session
  initialisation from localStorage (`initQuiz`), scoring (`submitQuiz`) and
  the leaderboard ranker (`showLeaderboard`).  Stateful JavaScript becomes
  explicit state passing on a `Session` structure; `JSON.parse`, which throws
  on corrupt input, becomes an `Except`-valued initialiser over an abstract
  store content (absent / corrupt / parsed).
-/

/-! ### Character-level utilities (Python `\s`, `str.strip`, case folding) -/

/-- Python `\s` on ASCII: space, tab, newline, carriage return, vertical tab,
form feed. -/
def isPySpace (c : Char) : Bool :=
  c == ' ' || c == '\t' || c == '\n' || c == '\r' || c == '\x0b' || c == '\x0c'

/-- ASCII lower-casing, as performed by `re.IGNORECASE` on the ASCII patterns
used in the source. -/
def toLowerAscii (c : Char) : Char :=
  if 'A' ≤ c && c ≤ 'Z' then Char.ofNat (c.toNat + 32) else c

/-- The option letters `[a-e]` with `re.IGNORECASE`. -/
def isAE (c : Char) : Bool :=
  c == 'a' || c == 'b' || c == 'c' || c == 'd' || c == 'e' ||
  c == 'A' || c == 'B' || c == 'C' || c == 'D' || c == 'E'

/-- Lower-case an option letter, as `match.group(1).lower()` does. -/
def lowerAE (c : Char) : Char :=
  if c == 'A' then 'a' else if c == 'B' then 'b' else if c == 'C' then 'c'
  else if c == 'D' then 'd' else if c == 'E' then 'e' else c

def isDigitCh (c : Char) : Bool := '0' ≤ c && c ≤ '9'

def isUpperAZ (c : Char) : Bool := 'A' ≤ c && c ≤ 'Z'

/-- Python `str.strip()` (ASCII whitespace). -/
def stripChars (l : List Char) : List Char :=
  ((l.dropWhile isPySpace).reverse.dropWhile isPySpace).reverse

/-- Case-insensitive prefix test; the pattern is given in lower case. -/
def startsWithCI : List Char → List Char → Bool
  | [], _ => true
  | _ :: _, [] => false
  | p :: ps, c :: cs => toLowerAscii c == p && startsWithCI ps cs

/-- The `<br>` line-break marker used by the parser to join bilingual lines. -/
def brMark : List Char := ['<', 'b', 'r', '>']

/-- `'<br>'.join(...)` on character lists. -/
def joinBr (ls : List (List Char)) : List Char := List.intercalate brMark ls

/-! ### Line classifiers (the regexes of `parse_txt_file`) -/

/-- `^[a-e]\)\s*|^\([a-e]\)\s*|^[a-e]\.\s*` (and the equivalent
`^([a-e])[\)\.]\s*|^\(([a-e])\)\s*`), with `re.IGNORECASE`: does the line
start with an option marker?  The trailing `\s*` never affects acceptance. -/
def isOptionLine (l : List Char) : Bool :=
  match l with
  | '(' :: a :: ')' :: _ => isAE a
  | a :: ')' :: _ => isAE a
  | a :: '.' :: _ => isAE a
  | _ => false

def corrPat : List Char := ['c', 'o', 'r', 'r', 'e', 'c', 't']
def answColonPat : List Char := ['a', 'n', 's', 'w', 'e', 'r', ':']
def answPat : List Char := ['a', 'n', 's', 'w', 'e', 'r']
def optWordPat : List Char := ['o', 'p', 't', 'i', 'o', 'n']
def exPat : List Char := ['e', 'x', ':']

/-- `^Correct|^Answer:|^ex:` with `re.IGNORECASE` (used both to stop option
collection and to reject a continuation line). -/
def isStopLine (l : List Char) : Bool :=
  startsWithCI corrPat l || startsWithCI answColonPat l || startsWithCI exPat l

/-- `^(?:\d+\.\s*|Q\.\d+\s+)` (no IGNORECASE): match the question-number
prefix and return the remainder of the line after the match, i.e. the result
of `re.sub` with that pattern.  `\d+` greedily takes the maximal digit run
(backtracking cannot help, since a shorter run is followed by a digit, not
`.`), and a trailing `\s*`/`\s+` takes the maximal whitespace run. -/
def stripQuestionPrefix (l : List Char) : Option (List Char) :=
  match l with
  | [] => none
  | c :: rest =>
    if isDigitCh c then
      match rest.dropWhile isDigitCh with
      | '.' :: r2 => some (r2.dropWhile isPySpace)
      | _ => none
    else if c == 'Q' then
      match rest with
      | '.' :: r2 =>
        if (r2.takeWhile isDigitCh) ≠ [] then
          match r2.dropWhile isDigitCh with
          | s :: r4 => if isPySpace s then some (r4.dropWhile isPySpace) else none
          | [] => none
        else none
      | _ => none
    else none

/-- `^Correct\s*(?:option)?\s*[:-]` with `re.IGNORECASE`.  Backtracking
analysis: since neither `option` nor `[:-]` starts with whitespace, each
`\s*` must take the maximal whitespace run, and the optional `option` is
taken exactly when it is present. -/
def isCorrectAnswerLine (l : List Char) : Bool :=
  if startsWithCI corrPat l then
    let r := (l.drop 7).dropWhile isPySpace
    if startsWithCI optWordPat r then
      match (r.drop 6).dropWhile isPySpace with
      | c :: _ => c == ':' || c == '-'
      | [] => false
    else
      match r with
      | c :: _ => c == ':' || c == '-'
      | [] => false
  else false

/-- `^Answer\s*[:-]` with `re.IGNORECASE`. -/
def isAnswerPrefixLine (l : List Char) : Bool :=
  if startsWithCI answPat l then
    match (l.drop 6).dropWhile isPySpace with
    | c :: _ => c == ':' || c == '-'
    | [] => false
  else false

/-- `re.search(r'[:-]\s*([a-e])', line, re.IGNORECASE)`: leftmost `:` or `-`
whose first following non-whitespace character is a letter a-e (whitespace
characters are not in `[a-e]`, so `\s*` must skip the maximal run); returns
the lower-cased captured letter. -/
def searchColonDashLetter : List Char → Option Char
  | [] => none
  | c :: rest =>
    if c == ':' || c == '-' then
      match rest.dropWhile isPySpace with
      | d :: _ => if isAE d then some (lowerAE d) else searchColonDashLetter rest
      | [] => none
    else searchColonDashLetter rest

/-- `re.search(r'\(([a-e])\)', line, re.IGNORECASE)`: leftmost `(x)` with
`x` a letter a-e; returns the lower-cased letter. -/
def searchParenLetter : List Char → Option Char
  | '(' :: a :: ')' :: rest =>
    if isAE a then some (lowerAE a) else searchParenLetter (a :: ')' :: rest)
  | _ :: rest => searchParenLetter rest
  | [] => none

/-- `{'a': '1', 'b': '2', 'c': '3', 'd': '4', 'e': '5'}.get(ans, '1')`. -/
def answerMap (c : Char) : List Char :=
  if c == 'a' then ['1'] else if c == 'b' then ['2'] else if c == 'c' then ['3']
  else if c == 'd' then ['4'] else if c == 'e' then ['5'] else ['1']

/-- `^ex:` with `re.IGNORECASE`. -/
def isExLine (l : List Char) : Bool := startsWithCI exPat l

/-- `re.sub(r'^ex:\s*', '', line, flags=re.IGNORECASE)`. -/
def stripEx (l : List Char) : List Char :=
  if isExLine l then (l.drop 3).dropWhile isPySpace else l

/-! ### Block splitting: `re.split(r'\n\s*\n|(?=Q\.\d+|\d+\.\s*[A-Z])', ...)` -/

/-- Index of the last `'\n'` in a list, if any. -/
def lastNewlineIdx (run : List Char) : Option Nat :=
  ((run.enum.filter (fun p => p.2 == '\n')).map (fun p => p.1)).getLast?

/-- Match of the non-empty alternative `\n\s*\n` at the head of the input;
returns the remainder after the match.  The greedy `\s*` backtracks to end at
the last `'\n'` of the maximal whitespace run following the leading
`'\n'`. -/
def matchBlankSep (l : List Char) : Option (List Char) :=
  match l with
  | '\n' :: rest =>
    match lastNewlineIdx (rest.takeWhile isPySpace) with
    | some j => some (rest.drop (j + 1))
    | none => none
  | _ => none

/-- Zero-width lookahead `(?=Q\.\d+)` (case-sensitive). -/
def lookaheadQnum (l : List Char) : Bool :=
  match l with
  | 'Q' :: '.' :: d :: _ => isDigitCh d
  | _ => false

/-- Zero-width lookahead `(?=\d+\.\s*[A-Z])` (case-sensitive): maximal digit
run, a dot, maximal whitespace, an upper-case letter. -/
def lookaheadNumDot (l : List Char) : Bool :=
  if (l.takeWhile isDigitCh) ≠ [] then
    match l.dropWhile isDigitCh with
    | '.' :: r =>
      match r.dropWhile isPySpace with
      | c :: _ => isUpperAZ c
      | [] => false
    | _ => false
  else false

/-- Scanner for `re.split` (Python ≥ 3.7 semantics): at each position try the
non-empty alternative first, then the zero-width lookahead; a non-empty match
ends the current piece and scanning resumes after it; a zero-width match ends
the current piece and scanning resumes one character later.  `fuel` bounds
recursion by the input length. -/
def splitScan : Nat → List Char → List Char → List (List Char)
  | _, [], cur => [cur.reverse]
  | 0, s, cur => [cur.reverse ++ s]
  | fuel + 1, c :: rest, cur =>
    match matchBlankSep (c :: rest) with
    | some rem => cur.reverse :: splitScan fuel rem []
    | none =>
      if lookaheadQnum (c :: rest) || lookaheadNumDot (c :: rest) then
        cur.reverse :: splitScan fuel rest [c]
      else splitScan fuel rest (c :: cur)

/-- `re.split(r'\n\s*\n|(?=Q\.\d+|\d+\.\s*[A-Z])', content.strip())`. -/
def splitBlocks (content : List Char) : List (List Char) :=
  let s := stripChars content
  splitScan (s.length + 1) s []

/-! ### Per-block parsing -/

/-- The parsed record built for each block (`question` dict of the source;
only the fields with parsed content — the remaining fields are constant
metadata). -/
structure Question where
  question : String
  option_1 : String
  option_2 : String
  option_3 : String
  option_4 : String
  option_5 : String
  answer : String
  solution_text : String
deriving DecidableEq, Repr

/-- Option collection (source lines 160-184): while the current line is an
option marker (at most 5 options), store the whole line, appending the next
line via `<br>` when it is a continuation (not an option marker and not a
`Correct`/`Answer:`/`ex:` line); a non-option line that is not a stop line is
skipped; a stop line (or the 5-option limit) ends collection.  Returns the
collected option texts in order and the remaining lines. -/
def collectOptions (ls : List (List Char)) (count : Nat) :
    List (List Char) × List (List Char) :=
  match ls with
  | [] => ([], [])
  | [l] =>
    if 5 ≤ count then ([], [l])
    else if isOptionLine l then ([l], [])
    else if isStopLine l then ([], [l])
    else ([], [])
  | l :: l2 :: rest2 =>
    if 5 ≤ count then ([], l :: l2 :: rest2)
    else if isOptionLine l then
      if !isOptionLine l2 && !isStopLine l2 then
        let p := collectOptions rest2 (count + 1)
        ((l ++ brMark ++ l2) :: p.1, p.2)
      else
        let p := collectOptions (l2 :: rest2) (count + 1)
        (l :: p.1, p.2)
    else if isStopLine l then ([], l :: l2 :: rest2)
    else collectOptions (l2 :: rest2) count

/-- Answer extraction (source lines 185-203): scan the remaining lines in
order; every line matching the `Correct ...` or `Answer ...` pattern with an
extractable letter overwrites the stored answer. -/
def extractAnswer : List (List Char) → List Char → List Char
  | [], acc => acc
  | l :: rest, acc =>
    if isCorrectAnswerLine l then
      match searchColonDashLetter l with
      | some c => extractAnswer rest (answerMap c)
      | none => extractAnswer rest acc
    else if isAnswerPrefixLine l then
      match searchParenLetter l with
      | some c => extractAnswer rest (answerMap c)
      | none =>
        match searchColonDashLetter l with
        | some c => extractAnswer rest (answerMap c)
        | none => extractAnswer rest acc
    else extractAnswer rest acc

/-- The stripped non-empty lines of a block. -/
def blockLines (block : List Char) : List (List Char) :=
  ((block.splitOn '\n').map stripChars).filter (fun l => l ≠ [])

/-- Question-text accumulation (source lines 137-158): if the first line
carries a question-number prefix, strip it and start the accumulator with the
remainder; collect subsequent lines until an option-marker line.  Returns the
accumulated question lines and the remaining lines. -/
def questionPhase (lines : List (List Char)) : List (List Char) × List (List Char) :=
  match lines with
  | [] => ([], [])
  | l0 :: restLines =>
    match stripQuestionPrefix l0 with
    | some qt =>
      let s := restLines.span (fun l => !isOptionLine l)
      (qt :: s.1, s.2)
    | none => lines.span (fun l => !isOptionLine l)

/-- Per-block parsing (source lines 119-228): blocks with fewer than 3
non-empty lines are dropped; a record is emitted only when the question text
is non-empty and `option_1` or `option_2` is non-empty. -/
def parseBlock (block : List Char) : Option Question :=
  let lines := blockLines block
  if lines.length < 3 then none
  else
    let qp := questionPhase lines
    let co := collectOptions qp.2 0
    let q : Question :=
      { question := String.mk (joinBr qp.1)
        option_1 := String.mk (co.1.getD 0 [])
        option_2 := String.mk (co.1.getD 1 [])
        option_3 := String.mk (co.1.getD 2 [])
        option_4 := String.mk (co.1.getD 3 [])
        option_5 := String.mk (co.1.getD 4 [])
        answer := String.mk (extractAnswer co.2 [])
        solution_text := String.mk (joinBr ((lines.filter isExLine).map stripEx)) }
    if q.question ≠ "" && (q.option_1 ≠ "" || q.option_2 ≠ "") then some q else none

/-- `parse_txt_file` (source lines 112-230). -/
def parse_txt_file (content : String) : List Question :=
  (splitBlocks content.toList).filterMap (fun b => parseBlock (stripChars b))

/-! ### Scoring Engine (`submitQuiz` in the generated page) -/

/-- A question as seen by the generated page's scoring code: its correct
answer (`q.answer`, a string `"1"`..`"5"`, or `""` when the parser found no
answer line) and its marks (`Number(q.correct_score)`,
`Number(q.negative_score)`); marks may be fractional (e.g. 0.25), hence `ℚ`. -/
structure JSQuestion where
  answer : String
  correct_score : ℚ
  negative_score : ℚ
deriving DecidableEq, Repr

/-- Accumulator of the `QUESTIONS.forEach` loop in `submitQuiz`. -/
structure ScoreAcc where
  maxMarks : ℚ
  totalMarks : ℚ
  correct : Nat
  wrong : Nat
deriving DecidableEq, Repr

/-- One iteration of the `submitQuiz` loop: `maxMarks += correct_score`;
`if (ans && String(ans) === String(q.answer))` add `correct_score` and count
correct; `else if (ans)` subtract `negative_score` and count wrong.  A JS
string is truthy exactly when non-empty. -/
def scoreStep (acc : ScoreAcc) (p : JSQuestion × Option String) : ScoreAcc :=
  let acc1 : ScoreAcc := { acc with maxMarks := acc.maxMarks + p.1.correct_score }
  match p.2 with
  | some v =>
    if v ≠ "" && v == p.1.answer then
      { acc1 with totalMarks := acc1.totalMarks + p.1.correct_score,
                  correct := acc1.correct + 1 }
    else if v ≠ "" then
      { acc1 with totalMarks := acc1.totalMarks - p.1.negative_score,
                  wrong := acc1.wrong + 1 }
    else acc1
  | none => acc1

/-- The Result written by `submitQuiz`/`displayResults`.  `accuracyTenths` is
the accuracy percentage in tenths of a percent: `toFixed(1)` rounds
`correct/attempted*100` to the nearest tenth, ties towards the larger value,
so the tenths count is `⌊1000*correct/attempted + 1/2⌋ =
(2000*correct + attempted) / (2*attempted)` in integer division. -/
structure Payload where
  score : ℚ
  maxMarks : ℚ
  correct : Nat
  wrong : Nat
  unattempted : Nat
  accuracyTenths : Nat
  timeTaken : Int
deriving DecidableEq, Repr

/-- `submitQuiz`'s scoring (source lines 661-705): fold over the questions
paired with the stored answer for each (`answers[q.id]`, `none` when the key
is absent); `attempted = Object.keys(answers).length`;
`unattempted = QUESTIONS.length - attempted`;
`accuracy = attempted ? ((correct/attempted)*100).toFixed(1) : "0.0"`;
`timeTaken = TOTAL_TIME_SECONDS - seconds`. -/
def submitQuizPayload (qs : List (JSQuestion × Option String))
    (totalTime seconds : Int) : Payload :=
  let acc := qs.foldl scoreStep ⟨0, 0, 0, 0⟩
  let attempted := (qs.filter (fun p => p.2.isSome)).length
  { score := acc.totalMarks
    maxMarks := acc.maxMarks
    correct := acc.correct
    wrong := acc.wrong
    unattempted := qs.length - attempted
    accuracyTenths :=
      if attempted = 0 then 0 else (2000 * acc.correct + attempted) / (2 * attempted)
    timeTaken := totalTime - seconds }

/-! ### Session state machine (the generated page's global state and events) -/

/-- The value stored under `QUIZ_RESULT_KEY` by `displayResults`. -/
structure SavedResultData where
  submitted : Bool
  resultHTML : String
  headerHTML : String
deriving DecidableEq, Repr

/-- Abbreviated rendering of the `reviewHTML` string `displayResults` builds;
downstream code only tests its truthiness (non-emptiness). -/
def mkResultHTML : String := "<div class=\"card\"><h3>Results Summary</h3>"

/-- The page's mutable globals relevant to timing and submission, plus
instrumentation counters: `clicks` counts firings of the submit-button click
handler, `submitCalls` counts invocations of `submitQuiz`. -/
structure Session where
  questions : List (JSQuestion × Option String)
  totalTime : Int
  seconds : Int
  timerActive : Bool
  modalShown : Bool
  store : List Payload
  savedResult : Option SavedResultData
  clicks : Nat
  submitCalls : Nat
deriving DecidableEq, Repr

/-- The submit-button click handler (`attachListeners`, source lines
813-817): it displays the confirmation modal; it does not submit. -/
def clickSubmitBtn (s : Session) : Session :=
  { s with modalShown := true, clicks := s.clicks + 1 }

/-- One firing of the `setInterval` callback installed by `startTimer`
(source lines 587-597): `seconds--`; when the new value is `<= 0`,
`clearInterval` (timer becomes inactive) and `submitBtn.click()`.  A tick
delivered after `clearInterval` is not processed. -/
def tick (s : Session) : Session :=
  if s.timerActive then
    let sec := s.seconds - 1
    if sec ≤ 0 then clickSubmitBtn { s with seconds := sec, timerActive := false }
    else { s with seconds := sec }
  else s

/-- `submitQuiz` (source lines 661-712): `clearInterval`; compute the payload;
write it to the attempt store; `displayResults` then persists
`{submitted: true, resultHTML, headerHTML}` under `QUIZ_RESULT_KEY`. -/
def submitQuizRun (s : Session) : Session :=
  let p := submitQuizPayload s.questions s.totalTime s.seconds
  { s with timerActive := false
           store := s.store ++ [p]
           savedResult := some ⟨true, mkResultHTML, "headerControls"⟩
           submitCalls := s.submitCalls + 1 }

/-- The confirmation modal's Submit button (`confirmSubmit` listener, source
lines 819-822): hide the modal and run `submitQuiz`. -/
def confirmSubmit (s : Session) : Session :=
  if s.modalShown then submitQuizRun { s with modalShown := false } else s

/-- Page state after a fresh `initQuiz` with no stored data: full time
budget, timer started, nothing stored. -/
def initialSession (qs : List (JSQuestion × Option String)) (total : Int) : Session :=
  { questions := qs, totalTime := total, seconds := total, timerActive := true,
    modalShown := false, store := [], savedResult := none, clicks := 0, submitCalls := 0 }

/-! ### Session initialisation (`initQuiz`, source lines 495-521) -/

/-- Content of `localStorage[QUIZ_STATE_KEY]`: absent, present but not valid
JSON (on which `JSON.parse` throws), or a parsed snapshot whose fields may
individually be missing (`state.current ?? 0` etc.). -/
inductive StoredState where
  | absent
  | corrupt
  | valid (current : Option Nat) (answers : Option (List (Option String)))
      (seconds : Option Int) (marked : Option (List Nat))
deriving DecidableEq

/-- Content of `localStorage[QUIZ_RESULT_KEY]`. -/
inductive StoredResult where
  | absent
  | corrupt
  | valid (d : SavedResultData)
deriving DecidableEq

/-- Outcome of `initQuiz`: either the saved result is re-rendered
(`showSavedResult` and return), or the quiz UI starts with the given session
fields (`renderQuestion`, `startTimer`, `attachListeners`). -/
inductive InitOutcome where
  | showSaved (d : SavedResultData)
  | activeSession (current : Nat) (answers : List (Option String))
      (seconds : Int) (marked : List Nat)
deriving DecidableEq

/-- The resume branch of `initQuiz`: `JSON.parse` of a corrupt snapshot
throws (the exception propagates out of `initQuiz`); an absent snapshot
leaves the fresh defaults; a parsed snapshot restores each field with `??`
defaults (`markedForReview` is replaced whenever present, since any array is
truthy in JS). -/
def restoreState (total : Int) (st : StoredState) : Except Unit InitOutcome :=
  match st with
  | .corrupt => .error ()
  | .absent => .ok (.activeSession 0 [] total [])
  | .valid c a sec m =>
      .ok (.activeSession (c.getD 0) (a.getD []) (sec.getD total) (m.getD []))

/-- `initQuiz`: first check `QUIZ_RESULT_KEY`; a corrupt value makes
`JSON.parse` throw; a parsed value with `submitted` truthy and `resultHTML`
truthy (non-empty) short-circuits to `showSavedResult`; otherwise fall
through to the resume logic. -/
def initQuiz (total : Int) (res : StoredResult) (st : StoredState) :
    Except Unit InitOutcome :=
  match res with
  | .corrupt => .error ()
  | .valid d =>
      if d.submitted && d.resultHTML ≠ "" then .ok (.showSaved d)
      else restoreState total st
  | .absent => restoreState total st

/-- Page state when `initQuiz` resumed an in-progress session: `startTimer`
is called unconditionally on the restored remaining time. -/
def resumedSession (qs : List (JSQuestion × Option String)) (total sec : Int) : Session :=
  { questions := qs, totalTime := total, seconds := sec, timerActive := true,
    modalShown := false, store := [], savedResult := none, clicks := 0, submitCalls := 0 }

/-! ### Leaderboard Ranker (`showLeaderboard`, source lines 630-658) -/

/-- A stored attempt as read back by the leaderboard. -/
structure AttemptResult where
  displayName : String
  email : String
  score : ℚ
  timeTaken : Int
deriving DecidableEq, Repr

/-- The JS comparator `(a,b) => b.score - a.score || a.timeTaken - b.timeTaken`
as a `may-precede` relation: `a` may come before `b` iff the comparator is
`≤ 0`, i.e. higher score first, earlier time breaking ties. -/
def lbLe (a b : AttemptResult) : Bool :=
  decide (b.score < a.score) ||
    (a.score == b.score && decide (a.timeTaken ≤ b.timeTaken))

/-- `Object.values` flattening of `attempt_history/<quiz>`: all users' and
all attempts' Results in one list. -/
def flattenAttempts (data : List (List AttemptResult)) : List AttemptResult :=
  data.flatten

/-- `attempts.sort(...)` then `.slice(0,10)`. -/
def showLeaderboardTop (data : List (List AttemptResult)) : List AttemptResult :=
  ((flattenAttempts data).mergeSort lbLe).take 10

/-- `a.displayName || a.email || 'Anonymous'` (JS `||` on strings: the first
non-empty one). -/
def resolveName (a : AttemptResult) : String :=
  if a.displayName ≠ "" then a.displayName
  else if a.email ≠ "" then a.email
  else "Anonymous"

/-- The rendered leaderboard rows: resolved name, score, time taken. -/
def showLeaderboardRows (data : List (List AttemptResult)) :
    List (String × ℚ × Int) :=
  (showLeaderboardTop data).map (fun a => (resolveName a, a.score, a.timeTaken))

/-! ### Specification-side characterisations and concrete inputs

The following definitions restate properties in the spec's vocabulary; the
theorems below compare them with the embedded code. -/

/-- Spec: a record is answered correctly when an answer is present (truthy)
and equals the record's correct answer. -/
def answeredCorrect (p : JSQuestion × Option String) : Bool :=
  match p.2 with
  | some v => v ≠ "" && v == p.1.answer
  | none => false

/-- Spec: answered, but not matching the correct answer. -/
def answeredWrong (p : JSQuestion × Option String) : Bool :=
  match p.2 with
  | some v => v ≠ "" && !(v == p.1.answer)
  | none => false

/-- Spec: per-record score contribution — `+correctScore` if answered
correctly, `-negativeScore` if answered incorrectly, `0` otherwise. -/
def specContribution (p : JSQuestion × Option String) : ℚ :=
  if answeredCorrect p then p.1.correct_score
  else if answeredWrong p then -p.1.negative_score
  else 0

/-- Spec: accuracy (in tenths of a percent) is `correct/answered*100` rounded
to one decimal, `0.0` when nothing was answered. -/
def accuracySpec (correct answered : Nat) : Nat :=
  if answered = 0 then 0 else (2000 * correct + answered) / (2 * answered)

/-- Spec ("answer extraction"): the answer digit contributed by a single
line, if the line is recognised as an answer line with an extractable
letter. -/
def lineAnswer (l : List Char) : Option (List Char) :=
  if isCorrectAnswerLine l then (searchColonDashLetter l).map answerMap
  else if isAnswerPrefixLine l then
    match searchParenLetter l with
    | some c => some (answerMap c)
    | none => (searchColonDashLetter l).map answerMap
  else none

/-- Number of populated option slots of a parsed record. -/
def optionCount (q : Question) : Nat :=
  ([q.option_1, q.option_2, q.option_3, q.option_4, q.option_5].filter
    (fun s => s ≠ "")).length

/-- Number of ticks the timer processes before deactivating itself: from a
positive remaining time `s` that is `s` ticks; from a remaining time `≤ 0`
(a resumed snapshot) a single tick reaches `≤ 0` and deactivates. -/
def autoStopTicks (s : Int) : Nat := if 1 ≤ s then s.toNat else 1

/-- The spec scenario block of Format A. -/
def c3Text : String := "1. What is 2+2?\na) 3\nb) 4\nCorrect option:-b\nex: Basic arithmetic"

/-- The record the code actually produces for `c3Text` (option markers are
kept). -/
def c3Record : Question :=
  { question := "What is 2+2?", option_1 := "a) 3", option_2 := "b) 4",
    option_3 := "", option_4 := "", option_5 := "",
    answer := "2", solution_text := "Basic arithmetic" }

/-- A block with a single option (and enough lines to survive the minimum
line count). -/
def c2Text : String := "1. Q\na) OnlyOption\nCorrect option:-a"

/-- The spec scenario block of Format B. -/
def c6TextA : String := "Q.1 Capital of France?\n(a) Paris\n(b) London\nAnswer: (a)"

/-- Same block with a second, different answer line appended. -/
def c6TextB : String := "Q.1 Capital of France?\n(a) Paris\n(b) London\nAnswer: (a)\nAnswer: (b)"

/-- A two-option block whose answer line names option `e`. -/
def c7Text : String := "1. Q\na) X\nb) Y\nCorrect option:-e"

/-- The spec's two-question scenario: `correctScore=3`, `negativeScore=1`,
question 1 answered correctly, question 2 answered incorrectly. -/
def c4Questions : List (JSQuestion × Option String) :=
  [(⟨"1", 3, 1⟩, some "1"), (⟨"2", 3, 1⟩, some "1")]

def c9r1 : AttemptResult := ⟨"Alice", "alice@x.com", 10, 120⟩
def c9r2 : AttemptResult := ⟨"Bob", "bob@x.com", 10, 90⟩
def c9r3 : AttemptResult := ⟨"Carol", "carol@x.com", 12, 300⟩
def c9r4 : AttemptResult := ⟨"Dave", "dave@x.com", 10, 1⟩

set_option maxRecDepth 8000

/-! ### Helper lemmas -/

/-- A record is emitted by `parseBlock` only when its question text is
non-empty and `option_1` or `option_2` is non-empty (the final guard of the
per-block loop). -/
lemma parseBlock_emit {b : List Char} {q : Question} (h : parseBlock b = some q) :
    q.question ≠ "" ∧ (q.option_1 ≠ "" ∨ q.option_2 ≠ "") := by
  simp only [parseBlock] at h
  split at h
  · exact absurd h (by simp)
  · split at h
    · rename_i hcond
      injection h with h
      subst h
      simpa using hcond
    · exact absurd h (by simp)

/-- Every record in the parser's output arises from `parseBlock` on one of
the split blocks. -/
lemma parse_txt_file_mem {content : String} {q : Question}
    (hq : q ∈ parse_txt_file content) :
    ∃ b, parseBlock (stripChars b) = some q := by
  obtain ⟨b, _, hb⟩ := List.mem_filterMap.mp hq
  exact ⟨b, hb⟩

/-- Shape of the record returned by `parseBlock`: the answer field is the
result of the answer-extraction loop on some line list. -/
lemma parseBlock_answer {b : List Char} {q : Question} (h : parseBlock b = some q) :
    ∃ rem, q.answer = String.mk (extractAnswer rem []) := by
  simp only [parseBlock] at h
  split at h
  · exact absurd h (by simp)
  · split at h
    · injection h with h
      subst h
      exact ⟨_, rfl⟩
    · exact absurd h (by simp)

/-- Every text collected by the option-collection loop is a whole
option-marker line of its input, possibly with the immediately following
continuation line appended through the `<br>` marker. -/
lemma collectOptions_opts :
    ∀ (ls : List (List Char)) (count : Nat) (o : List Char),
      o ∈ (collectOptions ls count).1 →
      ∃ l, l ∈ ls ∧ isOptionLine l = true ∧
        (o = l ∨ ∃ l2, l2 ∈ ls ∧ o = l ++ brMark ++ l2) := by
  intro ls count
  induction ls, count using collectOptions.induct with
  | case1 count => intro o ho; simp [collectOptions] at ho
  | case2 count l h5 => intro o ho; simp [collectOptions, if_pos h5] at ho
  | case3 count l h5 hop =>
    intro o ho
    simp only [collectOptions, if_neg h5, if_pos hop, List.mem_singleton] at ho
    subst ho
    exact ⟨o, by simp, hop, Or.inl rfl⟩
  | case4 count l h5 hop hst =>
    intro o ho
    simp [collectOptions, if_neg h5, hop, hst] at ho
  | case5 count l h5 hop hst =>
    intro o ho
    simp [collectOptions, if_neg h5, hop, hst] at ho
  | case6 count l l2 rest2 h5 => intro o ho; simp [collectOptions, if_pos h5] at ho
  | case7 count l l2 rest2 h5 hop hcont ih =>
    intro o ho
    simp only [collectOptions, if_neg h5, if_pos hop, if_pos hcont] at ho
    rcases List.mem_cons.mp ho with rfl | ho
    · exact ⟨l, by simp, hop, Or.inr ⟨l2, by simp, rfl⟩⟩
    · obtain ⟨la, hla, hopa, hrest⟩ := ih o ho
      refine ⟨la, by simp [hla], hopa, ?_⟩
      rcases hrest with h | ⟨l2a, hl2a, h⟩
      · exact Or.inl h
      · exact Or.inr ⟨l2a, by simp [hl2a], h⟩
  | case8 count l l2 rest2 h5 hop hcont ih =>
    intro o ho
    simp only [collectOptions, if_neg h5, if_pos hop, if_neg hcont] at ho
    rcases List.mem_cons.mp ho with rfl | ho
    · exact ⟨o, by simp, hop, Or.inl rfl⟩
    · obtain ⟨la, hla, hopa, hrest⟩ := ih o ho
      refine ⟨la, List.mem_cons_of_mem _ hla, hopa, ?_⟩
      rcases hrest with h | ⟨l2a, hl2a, h⟩
      · exact Or.inl h
      · exact Or.inr ⟨l2a, List.mem_cons_of_mem _ hl2a, h⟩
  | case9 count l l2 rest2 h5 hop hst =>
    intro o ho
    simp [collectOptions, if_neg h5, hop, hst] at ho
  | case10 count l l2 rest2 h5 hop hst ih =>
    intro o ho
    simp only [collectOptions, if_neg h5, if_neg hop, if_neg hst] at ho
    obtain ⟨la, hla, hopa, hrest⟩ := ih o ho
    refine ⟨la, List.mem_cons_of_mem _ hla, hopa, ?_⟩
    rcases hrest with h | ⟨l2a, hl2a, h⟩
    · exact Or.inl h
    · exact Or.inr ⟨l2a, List.mem_cons_of_mem _ hl2a, h⟩

/-- Defaulted last element of a list extended on the left. -/
lemma getLastD_shift (v : List Char) (tail : List (List Char)) (acc : List Char) :
    ((v :: tail).getLast?).getD acc = (tail.getLast?).getD v := by
  cases tail with
  | nil => rfl
  | cons b t =>
    rw [List.getLast?_cons_cons]
    obtain ⟨x, hx⟩ : ∃ x, (b :: t).getLast? = some x :=
      ⟨(b :: t).getLast (by simp), List.getLast?_eq_getLast_of_ne_nil (by simp)⟩
    rw [hx]
    rfl

/-- The answer-extraction loop keeps the digit of the last recognised answer
line (every recognised line overwrites the accumulator). -/
lemma extractAnswer_eq (rem : List (List Char)) (acc : List Char) :
    extractAnswer rem acc = ((rem.filterMap lineAnswer).getLast?).getD acc := by
  induction rem generalizing acc with
  | nil => rfl
  | cons l rest ih =>
    rw [List.filterMap_cons]
    by_cases h1 : isCorrectAnswerLine l = true
    · cases hs : searchColonDashLetter l with
      | some c =>
        have hl : lineAnswer l = some (answerMap c) := by simp [lineAnswer, h1, hs]
        simp only [hl]
        rw [show extractAnswer (l :: rest) acc = extractAnswer rest (answerMap c) from by
          simp [extractAnswer, h1, hs]]
        rw [ih, getLastD_shift]
      | none =>
        have hl : lineAnswer l = none := by simp [lineAnswer, h1, hs]
        simp only [hl]
        rw [show extractAnswer (l :: rest) acc = extractAnswer rest acc from by
          simp [extractAnswer, h1, hs]]
        exact ih acc
    · by_cases h2 : isAnswerPrefixLine l = true
      · cases hp : searchParenLetter l with
        | some c =>
          have hl : lineAnswer l = some (answerMap c) := by simp [lineAnswer, h1, h2, hp]
          simp only [hl]
          rw [show extractAnswer (l :: rest) acc = extractAnswer rest (answerMap c) from by
            simp [extractAnswer, h1, h2, hp]]
          rw [ih, getLastD_shift]
        | none =>
          cases hs : searchColonDashLetter l with
          | some c =>
            have hl : lineAnswer l = some (answerMap c) := by simp [lineAnswer, h1, h2, hp, hs]
            simp only [hl]
            rw [show extractAnswer (l :: rest) acc = extractAnswer rest (answerMap c) from by
              simp [extractAnswer, h1, h2, hp, hs]]
            rw [ih, getLastD_shift]
          | none =>
            have hl : lineAnswer l = none := by simp [lineAnswer, h1, h2, hp, hs]
            simp only [hl]
            rw [show extractAnswer (l :: rest) acc = extractAnswer rest acc from by
              simp [extractAnswer, h1, h2, hp, hs]]
            exact ih acc
      · have hl : lineAnswer l = none := by simp [lineAnswer, h1, h2]
        simp only [hl]
        rw [show extractAnswer (l :: rest) acc = extractAnswer rest acc from by
          simp [extractAnswer, h1, h2]]
        exact ih acc

/-- The letter-to-digit map only produces the digits 1 to 5. -/
lemma answerMap_shape (c : Char) :
    answerMap c = ['1'] ∨ answerMap c = ['2'] ∨ answerMap c = ['3'] ∨
      answerMap c = ['4'] ∨ answerMap c = ['5'] := by
  unfold answerMap
  split
  · exact Or.inl rfl
  · split
    · exact Or.inr (Or.inl rfl)
    · split
      · exact Or.inr (Or.inr (Or.inl rfl))
      · split
        · exact Or.inr (Or.inr (Or.inr (Or.inl rfl)))
        · split
          · exact Or.inr (Or.inr (Or.inr (Or.inr rfl)))
          · exact Or.inl rfl

/-- Any digit contributed by a single answer line comes from the
letter-to-digit map. -/
lemma lineAnswer_shape {l : List Char} {v : List Char} (h : lineAnswer l = some v) :
    ∃ c, v = answerMap c := by
  unfold lineAnswer at h
  by_cases h1 : isCorrectAnswerLine l = true
  · rw [if_pos h1] at h
    cases hs : searchColonDashLetter l with
    | some c => rw [hs] at h; simp at h; exact ⟨c, h.symm⟩
    | none => rw [hs] at h; simp at h
  · rw [if_neg h1] at h
    by_cases h2 : isAnswerPrefixLine l = true
    · rw [if_pos h2] at h
      cases hp : searchParenLetter l with
      | some c => rw [hp] at h; simp at h; exact ⟨c, h.symm⟩
      | none =>
        rw [hp] at h
        cases hs : searchColonDashLetter l with
        | some c => rw [hs] at h; simp at h; exact ⟨c, h.symm⟩
        | none => rw [hs] at h; simp at h
    · rw [if_neg h2] at h
      exact absurd h (by simp)

/-! ### Claim C2: emission guard of the parser -/

/-- C2 counterexample: the block "1. Q / a) OnlyOption / Correct option:-a"
has only one non-empty option slot, yet the parser emits it — the emission
guard only requires `option_1` or `option_2` to be non-empty, not two
options.  This refutes "a block with fewer than 2 options is never present
in the output". -/
theorem c2_counterexample :
    parse_txt_file c2Text =
      [{ question := "Q", option_1 := "a) OnlyOption", option_2 := "", option_3 := "",
         option_4 := "", option_5 := "", answer := "1", solution_text := "" }] ∧
    optionCount
      { question := "Q", option_1 := "a) OnlyOption", option_2 := "", option_3 := "",
        option_4 := "", option_5 := "", answer := "1", solution_text := "" } = 1 :=
  ⟨by decide, by decide⟩

/-- C2 (amended): for every input text, every QuestionRecord in the parser's
output has non-empty question text and a non-empty `option_1` or `option_2`
slot (at least one option); blocks failing this are dropped.  A block with a
single option can still be emitted. -/
theorem c2_amended (content : String) (q : Question) (hq : q ∈ parse_txt_file content) :
    q.question ≠ "" ∧ (q.option_1 ≠ "" ∨ q.option_2 ≠ "") := by
  obtain ⟨b, hb⟩ := parse_txt_file_mem hq
  exact parseBlock_emit hb

/-- C2 witness: the amended statement evaluated on the Format A scenario
block. -/
theorem c2_amended_witness :
    c3Record ∈ parse_txt_file c3Text ∧
    (c3Record.question ≠ "" ∧ (c3Record.option_1 ≠ "" ∨ c3Record.option_2 ≠ "")) :=
  ⟨by decide, c2_amended c3Text c3Record (by decide)⟩

/-! ### Claim C3: option texts keep their markers -/

/-- C3 counterexample: on the spec's own scenario block the stored option
texts are "a) 3" and "b) 4" — the option marker is NOT stripped, refuting
"each collected option's stored text is the option line's text with its
marker stripped" and the scenario's option values "3" and "4". -/
theorem c3_counterexample :
    parse_txt_file c3Text = [c3Record] ∧
    c3Record.option_1 = "a) 3" ∧ c3Record.option_1 ≠ "3" ∧
    c3Record.option_2 = "b) 4" ∧ c3Record.option_2 ≠ "4" :=
  ⟨by decide, by decide, by decide, by decide, by decide⟩

/-- C3 (amended): every collected option's stored text is the whole option
line including its marker, possibly extended by the following continuation
line through the `<br>` marker; the scenario block parses to question
"What is 2+2?", option 1 "a) 3", option 2 "b) 4", correct index 2 and
explanation "Basic arithmetic". -/
theorem c3_amended :
    (∀ (ls : List (List Char)) (count : Nat) (o : List Char),
        o ∈ (collectOptions ls count).1 →
        ∃ l, l ∈ ls ∧ isOptionLine l = true ∧
          (o = l ∨ ∃ l2, l2 ∈ ls ∧ o = l ++ brMark ++ l2)) ∧
    parse_txt_file c3Text = [c3Record] ∧
    c3Record.question = "What is 2+2?" ∧ c3Record.option_1 = "a) 3" ∧
    c3Record.option_2 = "b) 4" ∧ c3Record.answer = "2" ∧
    c3Record.solution_text = "Basic arithmetic" :=
  ⟨collectOptions_opts, by decide, by decide, by decide, by decide, by decide, by decide⟩

/-- C3 witness: the general option-shape statement evaluated on a concrete
two-line option list. -/
theorem c3_amended_witness :
    "a) 3".toList ∈ (collectOptions ["a) 3".toList, "b) 4".toList] 0).1 ∧
    (∃ l, l ∈ ["a) 3".toList, "b) 4".toList] ∧ isOptionLine l = true ∧
      ("a) 3".toList = l ∨
        ∃ l2, l2 ∈ ["a) 3".toList, "b) 4".toList] ∧ "a) 3".toList = l ++ brMark ++ l2)) :=
  ⟨by decide, c3_amended.1 ["a) 3".toList, "b) 4".toList] 0 "a) 3".toList (by decide)⟩

/-! ### Claim C6: which answer line decides the correct index -/

/-- C6 counterexample: in a block ending "Answer: (a)" then "Answer: (b)",
the first answer line maps to "1" but the emitted correct index is "2" — the
answer-extraction loop lets every later recognised answer line overwrite the
earlier one, refuting "determined by the first AnswerLine". -/
theorem c6_counterexample :
    (parse_txt_file c6TextB).map Question.answer = ["2"] ∧
    ((blockLines c6TextB.toList).filterMap lineAnswer).head? = some ['1'] :=
  ⟨by decide, by decide⟩

/-- C6 (amended): the emitted correct index is determined by the LAST
recognised answer line among the scanned lines (each recognised line
overwrites the stored answer), with letters mapped a→1 … e→5; a block whose
only answer line is "Answer: (a)" still yields correct index 1. -/
theorem c6_amended :
    (∀ rem : List (List Char),
        extractAnswer rem [] = ((rem.filterMap lineAnswer).getLast?).getD []) ∧
    (parse_txt_file c6TextA).map Question.answer = ["1"] ∧
    (parse_txt_file c6TextB).map Question.answer = ["2"] :=
  ⟨fun rem => extractAnswer_eq rem [], by decide, by decide⟩

/-! ### Claim C7: range of the emitted correct index -/

/-- C7 counterexample: the block "1. Q / a) X / b) Y / Correct option:-e"
is emitted with two non-empty options but correct index "5" — the parser
never checks the index against the number of collected options, refuting the
invariant "correct index ∈ [1, option count]". -/
theorem c7_counterexample :
    (parse_txt_file c7Text).map Question.answer = ["5"] ∧
    (parse_txt_file c7Text).map optionCount = [2] :=
  ⟨by decide, by decide⟩

/-- C7 (amended): every emitted record's correct index is either unset ("")
or one of "1" … "5" (the image of the letter map); it need not reference a
present option. -/
theorem c7_amended (content : String) (q : Question) (hq : q ∈ parse_txt_file content) :
    q.answer = "" ∨ q.answer = "1" ∨ q.answer = "2" ∨ q.answer = "3" ∨
      q.answer = "4" ∨ q.answer = "5" := by
  obtain ⟨b, hb⟩ := parse_txt_file_mem hq
  obtain ⟨rem, hans⟩ := parseBlock_answer hb
  rw [hans, extractAnswer_eq]
  cases hlast : (rem.filterMap lineAnswer).getLast? with
  | none => exact Or.inl rfl
  | some v =>
    have hvm : v ∈ rem.filterMap lineAnswer := by
      obtain ⟨hne, hveq⟩ := List.mem_getLast?_eq_getLast (Option.mem_def.mpr hlast)
      rw [hveq]
      exact List.getLast_mem hne
    obtain ⟨la, _, hline⟩ := List.mem_filterMap.mp hvm
    obtain ⟨c, rfl⟩ := lineAnswer_shape hline
    simp only [Option.getD_some]
    rcases answerMap_shape c with h | h | h | h | h <;> rw [h]
    · exact Or.inr (Or.inl rfl)
    · exact Or.inr (Or.inr (Or.inl rfl))
    · exact Or.inr (Or.inr (Or.inr (Or.inl rfl)))
    · exact Or.inr (Or.inr (Or.inr (Or.inr (Or.inl rfl))))
    · exact Or.inr (Or.inr (Or.inr (Or.inr (Or.inr rfl))))

/-- C7 witness: the amended statement evaluated on the Format A scenario
block. -/
theorem c7_amended_witness :
    c3Record ∈ parse_txt_file c3Text ∧
    (c3Record.answer = "" ∨ c3Record.answer = "1" ∨ c3Record.answer = "2" ∨
      c3Record.answer = "3" ∨ c3Record.answer = "4" ∨ c3Record.answer = "5") :=
  ⟨by decide, c7_amended c3Text c3Record (by decide)⟩

/-! ### Claim C4: scoring -/

/-- Partial sums of the `submitQuiz` scoring loop, characterised against the
spec-side per-record notions. -/
lemma scoreFold_spec (qs : List (JSQuestion × Option String)) (acc : ScoreAcc) :
    (qs.foldl scoreStep acc).maxMarks
        = acc.maxMarks + (qs.map (fun p => p.1.correct_score)).sum ∧
    (qs.foldl scoreStep acc).totalMarks
        = acc.totalMarks + (qs.map specContribution).sum ∧
    (qs.foldl scoreStep acc).correct = acc.correct + qs.countP answeredCorrect ∧
    (qs.foldl scoreStep acc).wrong = acc.wrong + qs.countP answeredWrong := by
  induction qs generalizing acc with
  | nil => simp
  | cons p rest ih =>
    obtain ⟨q, ans⟩ := p
    simp only [List.foldl_cons, List.map_cons, List.sum_cons, List.countP_cons]
    obtain ⟨ih1, ih2, ih3, ih4⟩ := ih (scoreStep acc (q, ans))
    rw [ih1, ih2, ih3, ih4]
    cases ans with
    | none =>
      simp [scoreStep, answeredCorrect, answeredWrong, specContribution]
      repeat' apply And.intro
      all_goals first | ring1 | omega
    | some v =>
      by_cases hv : v = ""
      · subst hv
        simp [scoreStep, answeredCorrect, answeredWrong, specContribution]
        repeat' apply And.intro
        all_goals first | ring1 | omega
      · by_cases hq : v = q.answer
        · subst hq
          simp [scoreStep, answeredCorrect, answeredWrong, specContribution, hv]
          repeat' apply And.intro
          all_goals first | ring1 | omega
        · simp [scoreStep, answeredCorrect, answeredWrong, specContribution, hv, hq]
          repeat' apply And.intro
          all_goals first | ring1 | omega

/-- C4: for every record list and answer map (whose stored values are
non-empty strings, as the session always stores `String(idx+1)`), scoring
sums the per-record contributions (+correctScore when answered correctly,
-negativeScore when answered incorrectly, 0 otherwise), counts correct,
wrong and unanswered records, computes the accuracy as
correct/answered*100 rounded to one decimal (0 when nothing answered), and
timeTaken = timeAllotted - timeRemaining; the two-question scenario with
correctScore=3, negativeScore=1, one correct and one incorrect answer gives
score=2, correct=1, wrong=1, unattempted=0, accuracy=50.0%. -/
theorem c4_scoring (qs : List (JSQuestion × Option String)) (totalTime seconds : Int)
    (h : ∀ p ∈ qs, p.2 ≠ some "") :
    (submitQuizPayload qs totalTime seconds).score = (qs.map specContribution).sum ∧
    (submitQuizPayload qs totalTime seconds).correct = qs.countP answeredCorrect ∧
    (submitQuizPayload qs totalTime seconds).wrong = qs.countP answeredWrong ∧
    (submitQuizPayload qs totalTime seconds).unattempted
        = qs.countP (fun p => !(answeredCorrect p || answeredWrong p)) ∧
    (submitQuizPayload qs totalTime seconds).accuracyTenths
        = accuracySpec (qs.countP answeredCorrect)
            (qs.countP (fun p => answeredCorrect p || answeredWrong p)) ∧
    (submitQuizPayload qs totalTime seconds).timeTaken = totalTime - seconds ∧
    submitQuizPayload c4Questions 300 0 =
      { score := 2, maxMarks := 6, correct := 1, wrong := 1, unattempted := 0,
        accuracyTenths := 500, timeTaken := 300 } := by
  obtain ⟨f1, f2, f3, f4⟩ := scoreFold_spec qs ⟨0, 0, 0, 0⟩
  have hsome : ∀ p ∈ qs, (answeredCorrect p || answeredWrong p) = p.2.isSome := by
    intro p hp
    match hp2 : p.2 with
    | none => simp [answeredCorrect, answeredWrong, hp2]
    | some v =>
      have hv : v ≠ "" := by
        intro hveq
        exact h p hp (by rw [hp2, hveq])
      by_cases hq : v = p.1.answer
      · subst hq
        simp [answeredCorrect, answeredWrong, hp2, hv]
      · simp [answeredCorrect, answeredWrong, hp2, hv, hq]
  have hcnt : qs.countP (fun p => answeredCorrect p || answeredWrong p)
      = qs.countP (fun p => p.2.isSome) := by
    refine List.countP_congr ?_
    intro p hp
    simp [hsome p hp]
  have hneg : qs.countP (fun p => !(answeredCorrect p || answeredWrong p))
      = qs.countP (fun p => decide ¬((fun p : JSQuestion × Option String => p.2.isSome) p = true)) := by
    refine List.countP_congr ?_
    intro p hp
    simp [hsome p hp]
  have hlen' : qs.length = qs.countP (fun p => p.2.isSome)
      + qs.countP (fun p => !(answeredCorrect p || answeredWrong p)) := by
    rw [hneg]
    exact List.length_eq_countP_add_countP (fun p : JSQuestion × Option String => p.2.isSome) qs
  have hatt : (qs.filter (fun p => p.2.isSome)).length
      = qs.countP (fun p => answeredCorrect p || answeredWrong p) := by
    rw [hcnt, List.countP_eq_length_filter]
  refine ⟨?_, ?_, ?_, ?_, ?_, rfl, ?_⟩
  · simpa [submitQuizPayload] using f2
  · simpa [submitQuizPayload] using f3
  · simpa [submitQuizPayload] using f4
  · simp only [submitQuizPayload]
    rw [← List.countP_eq_length_filter]
    omega
  · simp only [submitQuizPayload, accuracySpec, hatt]
    rw [show (List.foldl scoreStep ⟨0, 0, 0, 0⟩ qs).correct = qs.countP answeredCorrect by
      simpa using f3]
  · simp [c4Questions, submitQuizPayload, scoreStep]
    norm_num

/-- C4 witness: the scoring characterisation evaluated on the two-question
scenario. -/
theorem c4_scoring_witness :
    (∀ p ∈ c4Questions, p.2 ≠ some "") ∧
    ((submitQuizPayload c4Questions 300 0).score = (c4Questions.map specContribution).sum ∧
     (submitQuizPayload c4Questions 300 0).correct = c4Questions.countP answeredCorrect ∧
     (submitQuizPayload c4Questions 300 0).wrong = c4Questions.countP answeredWrong ∧
     (submitQuizPayload c4Questions 300 0).unattempted
        = c4Questions.countP (fun p => !(answeredCorrect p || answeredWrong p)) ∧
     (submitQuizPayload c4Questions 300 0).accuracyTenths
        = accuracySpec (c4Questions.countP answeredCorrect)
            (c4Questions.countP (fun p => answeredCorrect p || answeredWrong p)) ∧
     (submitQuizPayload c4Questions 300 0).timeTaken = 300 - 0 ∧
     submitQuizPayload c4Questions 300 0 =
       { score := 2, maxMarks := 6, correct := 1, wrong := 1, unattempted := 0,
         accuracyTenths := 500, timeTaken := 300 }) :=
  ⟨by decide, c4_scoring c4Questions 300 0 (by decide)⟩

/-! ### Claims C1 and C8: the timer -/

/-- Step form of a processed tick on an active timer. -/
lemma tick_active (s : Session) (h : s.timerActive = true) :
    tick s = if s.seconds - 1 ≤ 0
      then { s with seconds := s.seconds - 1, timerActive := false,
                    modalShown := true, clicks := s.clicks + 1 }
      else { s with seconds := s.seconds - 1 } := by
  simp only [tick, clickSubmitBtn, h, if_true]

/-- A tick delivered after `clearInterval` is not processed. -/
lemma tick_inactive (s : Session) (h : s.timerActive = false) : tick s = s := by
  simp [tick, h]

/-- The timer always processes at least one tick before deactivating. -/
lemma autoStopTicks_pos (s : Int) : 1 ≤ autoStopTicks s := by
  unfold autoStopTicks
  split <;> omega

/-- Characterisation of the tick count before deactivation. -/
lemma autoStopTicks_char (s : Int) :
    (1 ≤ s ∧ (autoStopTicks s : Int) = s) ∨ (s ≤ 0 ∧ autoStopTicks s = 1) := by
  unfold autoStopTicks
  split
  · rename_i hpos
    exact Or.inl ⟨hpos, by omega⟩
  · rename_i hneg
    exact Or.inr ⟨by omega, rfl⟩

/-- Full characterisation of `n` delivered ticks from a running session:
remaining time decreases by 1 per processed tick; once the decremented value
reaches `≤ 0` the timer deactivates, the submit button is clicked exactly
once and the confirmation modal shows; `submitQuiz` is never invoked and the
attempt store is never written. -/
lemma tick_iter_spec (s0 : Session) (hA : s0.timerActive = true)
    (hc : s0.clicks = 0) (hm : s0.modalShown = false) (hsub : s0.submitCalls = 0) :
    ∀ n : Nat,
      (tick^[n] s0).seconds = s0.seconds - ↑(min n (autoStopTicks s0.seconds)) ∧
      (tick^[n] s0).timerActive = decide (n < autoStopTicks s0.seconds) ∧
      (tick^[n] s0).clicks = (if autoStopTicks s0.seconds ≤ n then 1 else 0) ∧
      (tick^[n] s0).modalShown = decide (autoStopTicks s0.seconds ≤ n) ∧
      (tick^[n] s0).submitCalls = 0 ∧
      (tick^[n] s0).store = s0.store ∧
      (tick^[n] s0).savedResult = s0.savedResult := by
  have hk0 := autoStopTicks_pos s0.seconds
  have hkchar := autoStopTicks_char s0.seconds
  intro n
  induction n with
  | zero =>
    refine ⟨by simp, ?_, ?_, ?_, hsub, rfl, rfl⟩
    · rw [Function.iterate_zero_apply, hA]
      symm
      simpa using hk0
    · rw [Function.iterate_zero_apply, hc, if_neg (by omega)]
    · rw [Function.iterate_zero_apply, hm]
      symm
      simp
      omega
  | succ n ih =>
    obtain ⟨i1, i2, i3, i4, i5, i6, i7⟩ := ih
    rw [Function.iterate_succ_apply']
    by_cases hlt : n < autoStopTicks s0.seconds
    · have hAct : (tick^[n] s0).timerActive = true := by
        rw [i2]; simp [hlt]
      rw [tick_active _ hAct]
      by_cases hend : (tick^[n] s0).seconds - 1 ≤ 0
      · rw [if_pos hend]
        have hcross : autoStopTicks s0.seconds = n + 1 := by
          rw [i1] at hend
          rcases hkchar with ⟨hp, hke⟩ | ⟨hn0, hke⟩ <;> omega
        refine ⟨?_, ?_, ?_, ?_, i5, i6, i7⟩
        · simp only []
          rw [i1]
          omega
        · simp only []
          symm
          simp
          omega
        · simp only []
          rw [i3, if_neg (by omega), if_pos (by omega)]
        · simp only []
          symm
          simp
          omega
      · rw [if_neg hend]
        have hnc : n + 1 < autoStopTicks s0.seconds := by
          rw [i1] at hend
          rcases hkchar with ⟨hp, hke⟩ | ⟨hn0, hke⟩ <;> omega
        refine ⟨?_, ?_, ?_, ?_, i5, i6, i7⟩
        · simp only []
          rw [i1]
          omega
        · simp only []
          rw [i2]
          symm
          simp [hlt]
          omega
        · simp only []
          rw [i3, if_neg (by omega), if_neg (by omega)]
        · simp only []
          rw [i4]
          simp
          omega
    · have hAct : (tick^[n] s0).timerActive = false := by
        rw [i2]; simp [hlt]
      rw [tick_inactive _ hAct]
      refine ⟨?_, ?_, ?_, ?_, i5, i6, i7⟩
      · rw [i1]
        congr 2
        omega
      · rw [i2]
        simp
        omega
      · rw [i3, if_pos (by omega), if_pos (by omega)]
      · rw [i4]
        simp
        omega

/-- Session state reached by 60 ticks from a fresh 60-second session. -/
lemma c1_run : tick^[60] (initialSession [] 60) =
    { questions := [], totalTime := 60, seconds := 0, timerActive := false,
      modalShown := true, store := [], savedResult := none, clicks := 1, submitCalls := 0 } := by
  decide

/-- C1 counterexample: with a 60-second budget and 60 ticks delivered and no
manual action, NO Result has been written to the attempt store, nothing is
marked submitted, and `submitQuiz` has never run — only the submit
confirmation modal has been opened.  This refutes "the state machine ends in
Submitted with exactly one Result written". -/
theorem c1_counterexample :
    (tick^[60] (initialSession [] 60)).store = [] ∧
    (tick^[60] (initialSession [] 60)).savedResult = none ∧
    (tick^[60] (initialSession [] 60)).submitCalls = 0 ∧
    (tick^[60] (initialSession [] 60)).modalShown = true := by
  rw [c1_run]
  exact ⟨rfl, rfl, rfl, rfl⟩

/-- C1 (amended): after a 60-second budget and 60 ticks with no manual
action, the timer is stopped at 0 and the submit-confirmation modal is shown
(one submit-button click), with no Result written; only a subsequent click
on the modal's confirm button runs `submitQuiz`, writing exactly one Result
whose `timeTaken` is the full 60-second budget and marking the session
submitted. -/
theorem c1_amended :
    (tick^[60] (initialSession [] 60)).seconds = 0 ∧
    (tick^[60] (initialSession [] 60)).timerActive = false ∧
    (tick^[60] (initialSession [] 60)).modalShown = true ∧
    (tick^[60] (initialSession [] 60)).clicks = 1 ∧
    (tick^[60] (initialSession [] 60)).store = [] ∧
    (tick^[60] (initialSession [] 60)).savedResult = none ∧
    (confirmSubmit (tick^[60] (initialSession [] 60))).store = [submitQuizPayload [] 60 0] ∧
    (submitQuizPayload [] 60 0).timeTaken = 60 ∧
    (confirmSubmit (tick^[60] (initialSession [] 60))).submitCalls = 1 ∧
    (confirmSubmit (tick^[60] (initialSession [] 60))).savedResult
      = some ⟨true, mkResultHTML, "headerControls"⟩ := by
  rw [c1_run]
  refine ⟨rfl, rfl, rfl, rfl, rfl, rfl, ?_, rfl, ?_, ?_⟩
  · simp [confirmSubmit, submitQuizRun]
  · simp [confirmSubmit, submitQuizRun]
  · simp [confirmSubmit, submitQuizRun]

/-- C8 counterexample: a session resumed from a snapshot whose remaining
time is already 0 (the snapshot is restored verbatim and `startTimer` runs
unconditionally) ticks to -1 — remaining time goes below 0 because the
decrement has no floor — and no `submit()` (`submitQuiz`) invocation occurs;
only the confirmation modal opens.  This refutes "never below 0" and
"reaching 0 causes exactly one submit() invocation". -/
theorem c8_counterexample :
    initQuiz 60 .absent (.valid none none (some 0) none) = .ok (.activeSession 0 [] 0 []) ∧
    (tick (resumedSession [] 60 0)).seconds = -1 ∧
    (tick (resumedSession [] 60 0)).seconds < 0 ∧
    (tick (resumedSession [] 60 0)).submitCalls = 0 ∧
    (tick (resumedSession [] 60 0)).store = [] ∧
    (tick (resumedSession [] 60 0)).modalShown = true :=
  ⟨rfl, by decide, by decide, by decide, by decide, by decide⟩

/-- C8 (amended): every processed tick decreases remaining time by exactly
1 (ticks after deactivation are not processed); from a positive remaining
time the value never goes below 0, but a session resumed at 0 reaches -1;
the tick that lands at `≤ 0` deactivates the timer and clicks the submit
button exactly once — opening the confirmation modal — even under arbitrary
further tick delivery, and `submitQuiz` is never invoked automatically. -/
theorem c8_amended (s0 : Session) (n : Nat) (hA : s0.timerActive = true)
    (hc : s0.clicks = 0) (hm : s0.modalShown = false) (hsub : s0.submitCalls = 0) :
    (∀ s : Session, s.timerActive = true → (tick s).seconds = s.seconds - 1) ∧
    (∀ s : Session, s.timerActive = false → tick s = s) ∧
    (tick^[n] s0).seconds = s0.seconds - ↑(min n (autoStopTicks s0.seconds)) ∧
    (1 ≤ s0.seconds → 0 ≤ (tick^[n] s0).seconds) ∧
    (tick^[n] s0).clicks = (if autoStopTicks s0.seconds ≤ n then 1 else 0) ∧
    (tick^[n] s0).modalShown = decide (autoStopTicks s0.seconds ≤ n) ∧
    (tick^[n] s0).submitCalls = 0 ∧
    (tick^[n] s0).store = s0.store := by
  obtain ⟨i1, i2, i3, i4, i5, i6, i7⟩ := tick_iter_spec s0 hA hc hm hsub n
  refine ⟨?_, tick_inactive, i1, ?_, i3, i4, i5, i6⟩
  · intro s hs
    rw [tick_active s hs]
    split <;> rfl
  · intro hpos
    rw [i1]
    rcases autoStopTicks_char s0.seconds with ⟨hp, hke⟩ | ⟨hn0, hke⟩ <;> omega

/-- C8 witness: the amended timer characterisation evaluated for one tick on
a session resumed with 0 seconds remaining. -/
theorem c8_amended_witness :
    ((∀ s : Session, s.timerActive = true → (tick s).seconds = s.seconds - 1) ∧
     (∀ s : Session, s.timerActive = false → tick s = s) ∧
     (tick^[1] (resumedSession [] 60 0)).seconds
        = (resumedSession [] 60 0).seconds
            - ↑(min 1 (autoStopTicks (resumedSession [] 60 0).seconds)) ∧
     (1 ≤ (resumedSession [] 60 0).seconds → 0 ≤ (tick^[1] (resumedSession [] 60 0)).seconds) ∧
     (tick^[1] (resumedSession [] 60 0)).clicks
        = (if autoStopTicks (resumedSession [] 60 0).seconds ≤ 1 then 1 else 0) ∧
     (tick^[1] (resumedSession [] 60 0)).modalShown
        = decide (autoStopTicks (resumedSession [] 60 0).seconds ≤ 1) ∧
     (tick^[1] (resumedSession [] 60 0)).submitCalls = 0 ∧
     (tick^[1] (resumedSession [] 60 0)).store = (resumedSession [] 60 0).store) :=
  c8_amended (resumedSession [] 60 0) 1 rfl rfl rfl rfl

/-! ### Claim C9: the leaderboard ranker -/

/-- Totality of the leaderboard comparator. -/
lemma lbLe_total (a b : AttemptResult) : (lbLe a b || lbLe b a) = true := by
  simp only [lbLe, Bool.or_eq_true, Bool.and_eq_true, decide_eq_true_eq, beq_iff_eq]
  rcases lt_trichotomy a.score b.score with h | h | h
  · exact Or.inr (Or.inl h)
  · rcases le_total a.timeTaken b.timeTaken with ht | ht
    · exact Or.inl (Or.inr ⟨h, ht⟩)
    · exact Or.inr (Or.inr ⟨h.symm, ht⟩)
  · exact Or.inl (Or.inl h)

/-- Transitivity of the leaderboard comparator. -/
lemma lbLe_trans (a b c : AttemptResult)
    (h1 : lbLe a b = true) (h2 : lbLe b c = true) : lbLe a c = true := by
  simp only [lbLe, Bool.or_eq_true, Bool.and_eq_true, decide_eq_true_eq, beq_iff_eq] at h1 h2 ⊢
  rcases h1 with h1 | ⟨h1e, h1t⟩ <;> rcases h2 with h2 | ⟨h2e, h2t⟩
  · exact Or.inl (h2.trans h1)
  · exact Or.inl (h2e ▸ h1)
  · exact Or.inl (by rw [h1e]; exact h2)
  · exact Or.inr ⟨h1e.trans h2e, h1t.trans h2t⟩

/-- C9: the leaderboard flattens all users' attempts into one list, orders
it by score descending with time-taken ascending as tie-break, truncates to
the top 10, and resolves display names as stored display name, else email,
else "Anonymous"; in particular score 10/time 90 ranks strictly before
score 10/time 120 (whatever the input order), and score 12/time 300 ranks
before score 10/time 1. -/
theorem c9_leaderboard (data : List (List AttemptResult)) :
    List.Pairwise (fun a b => lbLe a b = true) (showLeaderboardTop data) ∧
    (showLeaderboardTop data).length = min 10 (flattenAttempts data).length ∧
    showLeaderboardTop data ⊆ flattenAttempts data ∧
    showLeaderboardRows data
      = (showLeaderboardTop data).map (fun a => (resolveName a, a.score, a.timeTaken)) ∧
    showLeaderboardTop [[c9r1], [c9r2]] = [c9r2, c9r1] ∧
    showLeaderboardTop [[c9r2], [c9r1]] = [c9r2, c9r1] ∧
    showLeaderboardTop [[c9r3], [c9r4]] = [c9r3, c9r4] ∧
    showLeaderboardTop [[c9r4], [c9r3]] = [c9r3, c9r4] ∧
    resolveName ⟨"Alice", "alice@x.com", 10, 120⟩ = "Alice" ∧
    resolveName ⟨"", "alice@x.com", 10, 120⟩ = "alice@x.com" ∧
    resolveName ⟨"", "", 10, 120⟩ = "Anonymous" := by
  refine ⟨?_, ?_, ?_, rfl, ?_, ?_, ?_, ?_,
    by simp [resolveName], by simp [resolveName], rfl⟩
  · exact List.Pairwise.sublist (List.take_sublist _ _)
      (List.sorted_mergeSort lbLe_trans lbLe_total _)
  · rw [showLeaderboardTop, List.length_take, (List.mergeSort_perm _ _).length_eq]
  · intro a ha
    exact (List.mergeSort_perm _ _).subset ((List.take_sublist _ _).subset ha)
  · norm_num [showLeaderboardTop, flattenAttempts, List.mergeSort, lbLe, c9r1, c9r2]
  · norm_num [showLeaderboardTop, flattenAttempts, List.mergeSort, lbLe, c9r1, c9r2]
  · norm_num [showLeaderboardTop, flattenAttempts, List.mergeSort, lbLe, c9r3, c9r4]
  · norm_num [showLeaderboardTop, flattenAttempts, List.mergeSort, lbLe, c9r3, c9r4]

/-! ### Claim C5: snapshot restore -/

/-- C5 counterexample: when the persisted in-progress snapshot is corrupt
(not valid JSON), `initQuiz` propagates the `JSON.parse` exception and the
session FAILS to initialise — the snapshot is not discarded and no fresh
Active session starts, refuting "discards the snapshot wholesale and starts
a fresh Active session; never fails to initialize". -/
theorem c5_counterexample : initQuiz 60 .absent .corrupt = .error () := rfl

/-- C5 (amended): an absent snapshot starts a fresh Active session with full
defaults, but a corrupt snapshot (under either storage key) makes
`JSON.parse` throw, so session initialisation aborts instead of starting
fresh. -/
theorem c5_amended (total : Int) (st : StoredState) :
    initQuiz total .absent .absent = .ok (.activeSession 0 [] total []) ∧
    initQuiz total .absent .corrupt = .error () ∧
    initQuiz total .corrupt st = .error () :=
  ⟨rfl, rfl, rfl⟩

/-! ### Claim C10: re-attempt after a terminal Result -/

/-- C10 (code bug): `submitQuiz`/`displayResults` persist
`{submitted: true, resultHTML: <non-empty>}` under the result key, and the
"Re-Attempt" button merely reloads the page; on reload `initQuiz` finds that
stored result and short-circuits to re-rendering it — for EVERY state of the
in-progress snapshot it never returns a fresh Active session.  The stored
terminal Result therefore permanently prevents a new attempt, contradicting
the claim (and the button's own purpose). -/
theorem c10_bug (s : Session) (T : Int) (st : StoredState) :
    (submitQuizRun s).savedResult = some ⟨true, mkResultHTML, "headerControls"⟩ ∧
    mkResultHTML ≠ "" ∧
    initQuiz T (.valid ⟨true, mkResultHTML, "headerControls"⟩) st
      = .ok (.showSaved ⟨true, mkResultHTML, "headerControls"⟩) ∧
    (∀ cur ans sec mk, initQuiz T (.valid ⟨true, mkResultHTML, "headerControls"⟩) st
      ≠ .ok (.activeSession cur ans sec mk)) := by
  have h3 : initQuiz T (.valid ⟨true, mkResultHTML, "headerControls"⟩) st
      = .ok (.showSaved ⟨true, mkResultHTML, "headerControls"⟩) := by
    simp [initQuiz, mkResultHTML]
  refine ⟨rfl, by decide, h3, ?_⟩
  intro cur ans sec mk h
  rw [h3] at h
  simp at h
